import Mathlib

/-!
Verification of the CSP construction and solving core of the
`vlm-puzzle-solving` repository, as a shallow embedding in Lean 4.

The embedding covers:
* `src/core/csp_problem.py`     — `Variable`, `Constraint`, `CSPProblem`
  (`add_variable`, `add_constraint`, `get_constraints_for_variable`,
  `is_consistent`);
* `src/core/puzzle_state.py`    — `PuzzleState.get_domain`;
* `src/core/constraint_rules.py`— `ConstraintType`, `ConstraintRule`,
  `ConstraintRuleSet`;
* `src/modules/csp_translator.py` — `CSPTranslator.translate` and its
  helpers, in particular `_convert_scope_to_variables`;
* `src/solvers/csp_solver.py`   — `CSPSolver._build_constraint_problem`
  (including the late-binding capture of the loop variable `constraint`
  inside `make_constraint`) together with a model of the backtracking
  search that the `python-constraint` library performs in
  `problem.getSolution()`;
* `src/solvers/ortools_solver.py` — `_build_ortools_model`'s per-constraint
  conversion and `_generate_allowed_assignments`.

Python values are modelled as follows: `str` is Lean `String` manipulated
through explicit character-list operations (so that `split`, `startswith`,
`int(...)`, `str(...)` and `in` are concrete executable functions whose
behaviour matches CPython's on the ASCII inputs this program handles);
`dict` is an insertion-ordered association list with unique keys; `int` is
`Int`; a function that may raise is an `Except Unit` value (the exception
payload is irrelevant to control flow here).
-/

namespace VlmCsp

/-! ## Python dictionaries

An insertion-ordered association list.  `dictSet` models `d[k] = v`:
it overwrites the value at the first occurrence of `k` (keys are unique in
every dictionary the program builds, and a Python dict keeps the original
insertion position on overwrite) and appends at the end otherwise.
-/

def dictGet? {κ β : Type} [BEq κ] (d : List (κ × β)) (k : κ) : Option β :=
  (d.find? (fun p => p.1 == k)).map (fun p => p.2)

def dictContains {κ β : Type} [BEq κ] (d : List (κ × β)) (k : κ) : Bool :=
  (dictGet? d k).isSome

def dictSet {κ β : Type} [BEq κ] (d : List (κ × β)) (k : κ) (v : β) :
    List (κ × β) :=
  match d with
  | [] => [(k, v)]
  | (k', v') :: rest =>
      if k' == k then (k, v) :: rest else (k', v') :: dictSet rest k v

/-- Build a dict from a list of key/value pairs, later pairs winning,
as a Python dict comprehension over a list of pairs does. -/
def mkDict {κ β : Type} [BEq κ] (ps : List (κ × β)) : List (κ × β) :=
  ps.foldl (fun d p => dictSet d p.1 p.2) []

/-! ## Python string primitives

`str` stays Lean `String`, but every operation the translator performs on
names goes through the character list `String.data`, with executable
models of `str.split('_')`, `str.startswith`, `str.strip`, `int(...)`,
`str(int)`, `str.lower` and the substring test `in`.
-/

/-- The decimal digit character for `d < 10` (models Python's rendering of
one digit of a non-negative integer). -/
def digitChar (d : Nat) : Char :=
  if d = 0 then '0' else if d = 1 then '1' else if d = 2 then '2'
  else if d = 3 then '3' else if d = 4 then '4' else if d = 5 then '5'
  else if d = 6 then '6' else if d = 7 then '7' else if d = 8 then '8'
  else if d = 9 then '9' else '*'

/-- Decimal digits of a natural number, most significant first, with a
structural fuel argument (`n < fuel` always holds at the call sites, and
`n / 10 < n` keeps it adequate). -/
def natDigitsAux : Nat → Nat → List Char
  | 0, _ => []
  | fuel + 1, n =>
      if n < 10 then [digitChar n]
      else natDigitsAux fuel (n / 10) ++ [digitChar (n % 10)]

/-- Decimal digits of a natural number, most significant first;
models Python `str(n)` for `n ≥ 0`. -/
def natDigits (n : Nat) : List Char := natDigitsAux (n + 1) n

/-- Python `str(n)` for a non-negative integer. -/
def natRepr (n : Nat) : String := String.mk (natDigits n)

/-- Python `str(i)` for an arbitrary integer. -/
def intRepr (i : Int) : String :=
  if i < 0 then "-" ++ natRepr i.natAbs else natRepr i.toNat

/-- Python `s.startswith(pre)`. -/
def pyStartsWith (s pre : String) : Bool :=
  pre.data.isPrefixOf s.data

/-- Python `s.split(sep)` for a one-character separator, on character
lists: splits at every occurrence, keeping empty pieces. -/
def pySplitChars (sep : Char) : List Char → List (List Char)
  | [] => [[]]
  | c :: cs =>
      if c = sep then [] :: pySplitChars sep cs
      else
        match pySplitChars sep cs with
        | [] => [[c]]
        | g :: gs => (c :: g) :: gs

/-- Python `s.split(sep)` for a one-character separator. -/
def pySplit (s : String) (sep : Char) : List String :=
  (pySplitChars sep s.data).map String.mk

/-- Python `s.strip()` (ASCII whitespace suffices for this program). -/
def pyStrip (l : List Char) : List Char :=
  ((l.dropWhile Char.isWhitespace).reverse.dropWhile Char.isWhitespace).reverse

/-- Numeric value of a list of decimal digit characters. -/
def digitsVal (l : List Char) : Nat :=
  l.foldl (fun a c => a * 10 + (c.toNat - 48)) 0

/-- The body of `int(...)` after stripping: an optional single sign,
then one or more decimal digits. -/
def pyIntParseCore : List Char → Option Int
  | [] => none
  | c :: rest =>
      if c = '-' then
        if rest ≠ [] ∧ rest.all Char.isDigit then
          some (-(digitsVal rest : Int))
        else none
      else if c = '+' then
        if rest ≠ [] ∧ rest.all Char.isDigit then
          some ((digitsVal rest : Int))
        else none
      else
        if (c :: rest).all Char.isDigit then
          some ((digitsVal (c :: rest) : Int))
        else none

/-- Python `int(s)`: strip whitespace, an optional single sign, then one
or more decimal digits; `none` models the `ValueError` that `int` raises
otherwise. -/
def pyIntParse (s : String) : Option Int :=
  pyIntParseCore (pyStrip s.data)

/-- Python's substring test `sub in l`, on character lists. -/
def listContainsSub (sub : List Char) : List Char → Bool
  | [] => sub.isEmpty
  | c :: t => sub.isPrefixOf (c :: t) || listContainsSub sub t

/-- Python `sub in s` for strings. -/
def pyContains (s sub : String) : Bool :=
  listContainsSub sub.data s.data

/-- Python `s.lower()` (ASCII). -/
def pyLower (s : String) : String :=
  String.mk (s.data.map Char.toLower)

/-! ## Core data model — `src/core/csp_problem.py` -/

/-- A CSP variable (`Variable` in `csp_problem.py`): `name`, `domain`,
optional assigned `value`.  Puzzle domains are integers. -/
structure Variable where
  name : String
  domain : List Int
  value : Option Int := none
deriving Repr, DecidableEq

/-- `Variable.is_assigned`. -/
def Variable.isAssigned (v : Variable) : Bool := v.value.isSome

/-- A partial assignment handed to a constraint predicate
(the Python dict `{variable name: value}`). -/
abbrev Assignment := List (String × Int)

/-- Constraint `parameters` (the Python dict `{str: value}`; the values
this program stores and reads are integers, e.g. the target sum). -/
abbrev Params := List (String × Int)

/-- A constraint predicate: Python callable `pred(assignment, params)`.
`Except.error` models the predicate raising an exception. -/
abbrev Pred := Assignment → Params → Except Unit Bool

/-- A CSP constraint (`Constraint` in `csp_problem.py`). -/
structure Constraint where
  name : String
  scope : List String
  predicate : Option Pred := none
  parameters : Params := []

/-- `CSPProblem`: the variable dictionary (`variables` in the Python
source, insertion-ordered) and the constraint list.  The `metadata` field
is never read by the translator or the solvers and is omitted. -/
structure CSPProblem where
  vars : List (String × Variable) := []
  constraints : List Constraint := []

/-- `CSPProblem.add_variable`. -/
def addVariable (p : CSPProblem) (name : String) (domain : List Int) :
    CSPProblem :=
  { vars := dictSet p.vars name ⟨name, domain, none⟩,
    constraints := p.constraints }

/-- `CSPProblem.add_constraint` — note: no validation of the scope
against the variable dictionary is performed. -/
def addConstraint (p : CSPProblem) (name : String) (scope : List String)
    (predicate : Option Pred) (parameters : Params) : CSPProblem :=
  { vars := p.vars,
    constraints := p.constraints ++ [⟨name, scope, predicate, parameters⟩] }

/-- `CSPProblem.get_constraints_for_variable`. -/
def getConstraintsForVariable (p : CSPProblem) (varName : String) :
    List Constraint :=
  p.constraints.filter (fun c => c.scope.contains varName)

/-! ## Puzzle state — `src/core/puzzle_state.py` -/

/-- `PuzzleState`: grid dimensions, fixed cells, per-cell candidate
domains.  (`empty_cells` and `confidence` are never read by the
translator; `__post_init__`'s default-domain population is equivalent to
`get_domain`'s `[1..9]` fallback, which the model applies directly.) -/
structure PuzzleState where
  gridSize : Int × Int := (9, 9)
  filledCells : List ((Int × Int) × Int) := []
  domains : List ((Int × Int) × List Int) := []

/-- `PuzzleState.get_domain`. -/
def getDomain (st : PuzzleState) (row col : Int) : List Int :=
  match dictGet? st.filledCells (row, col) with
  | some v => [v]
  | none => (dictGet? st.domains (row, col)).getD [1, 2, 3, 4, 5, 6, 7, 8, 9]

/-! ## Constraint rules — `src/core/constraint_rules.py` -/

/-- `ConstraintType` (a `str` enum). -/
inductive ConstraintType where
  | all_different
  | sum_
  | arithmetic
  | adjacency
  | custom
deriving Repr, DecidableEq

/-- The `.value` of the enum member. -/
def ConstraintType.value : ConstraintType → String
  | .all_different => "all_different"
  | .sum_ => "sum"
  | .arithmetic => "arithmetic"
  | .adjacency => "adjacency"
  | .custom => "custom"

/-- `ConstraintRule`: type, scope tokens, parameters (the `description`
field is never read by the translator). -/
structure ConstraintRule where
  constraintType : ConstraintType
  scope : List String
  parameters : Params := []

/-- `ConstraintRuleSet` — only the `rules` list is read by `translate`. -/
structure ConstraintRuleSet where
  rules : List ConstraintRule := []

/-! ## Translator — `src/modules/csp_translator.py` -/

/-- The cell variable name `f"cell_{row}_{col}"` for integer indices. -/
def cellNameI (row col : Int) : String :=
  "cell_" ++ intRepr row ++ "_" ++ intRepr col

/-- The cell variable name for natural indices (the form produced by
`_add_variables`, whose loop indices are non-negative). -/
def cellNameN (row col : Nat) : String :=
  "cell_" ++ natRepr row ++ "_" ++ natRepr col

/-- One iteration of `_convert_scope_to_variables`' loop: the variable
names contributed by a single scope token.  `Except.error` models the
`ValueError` raised by `int(item.split("_")[1])` on a non-numeric index;
a token of unknown format contributes nothing (it is logged and
dropped). -/
def convertToken (item : String) : Except Unit (List String) :=
  if pyStartsWith item "row_" then
    match pyIntParse ((pySplit item '_').getD 1 "") with
    | none => .error ()
    | some rowIdx =>
        .ok ((List.range 9).map (fun col => cellNameI rowIdx (Int.ofNat col)))
  else if pyStartsWith item "col_" then
    match pyIntParse ((pySplit item '_').getD 1 "") with
    | none => .error ()
    | some colIdx =>
        .ok ((List.range 9).map (fun row => cellNameI (Int.ofNat row) colIdx))
  else if pyStartsWith item "box_" then
    match pyIntParse ((pySplit item '_').getD 1 "") with
    | none => .error ()
    | some boxIdx =>
        let boxRow := boxIdx.fdiv 3 * 3
        let boxCol := boxIdx.fmod 3 * 3
        .ok ((List.range 3).flatMap (fun r =>
          (List.range 3).map (fun c =>
            cellNameI (boxRow + Int.ofNat r) (boxCol + Int.ofNat c))))
  else if pyStartsWith item "cell_" then
    .ok [item]
  else
    .ok []

/-- `CSPTranslator._convert_scope_to_variables`: left-to-right expansion
of all scope tokens, raising at the first token whose index is not an
integer. -/
def convertScopeToVariables : List String → Except Unit (List String)
  | [] => .ok []
  | item :: rest => do
      let vs ← convertToken item
      let others ← convertScopeToVariables rest
      pure (vs ++ others)

/-- The closure `all_different_predicate` built by
`_add_all_different_constraint` over the expanded `variable_names`. -/
def allDifferentPredicate (variableNames : List String) : Pred :=
  fun assignment _params =>
    let values := variableNames.filterMap (fun v => dictGet? assignment v)
    if values.length < variableNames.length then .ok true
    else .ok (values.length == values.dedup.length)

/-- The closure `sum_predicate` built by `_add_sum_constraint`. -/
def sumPredicate (variableNames : List String) : Pred :=
  fun assignment params =>
    let values := variableNames.filterMap (fun v => dictGet? assignment v)
    if values.length < variableNames.length then .ok true
    else .ok (values.sum == (dictGet? params "sum").getD 0)

/-- The placeholder `arithmetic_predicate` built by
`_add_arithmetic_constraint`: it ignores its arguments and succeeds. -/
def arithmeticPredicate : Pred := fun _assignment _params => .ok true

/-- `CSPTranslator._add_all_different_constraint`. -/
def addAllDifferentConstraint (csp : CSPProblem) (constraintName : String)
    (scope : List String) : Except Unit CSPProblem := do
  let variableNames ← convertScopeToVariables scope
  if variableNames.isEmpty then pure csp
  else pure (addConstraint csp constraintName variableNames
    (some (allDifferentPredicate variableNames)) [])

/-- `CSPTranslator._add_sum_constraint`. -/
def addSumConstraint (csp : CSPProblem) (constraintName : String)
    (scope : List String) (parameters : Params) : Except Unit CSPProblem := do
  let targetSum := (dictGet? parameters "sum").getD 0
  let variableNames ← convertScopeToVariables scope
  if variableNames.isEmpty then pure csp
  else pure (addConstraint csp constraintName variableNames
    (some (sumPredicate variableNames)) [("sum", targetSum)])

/-- `CSPTranslator._add_arithmetic_constraint`. -/
def addArithmeticConstraint (csp : CSPProblem) (constraintName : String)
    (scope : List String) (parameters : Params) : Except Unit CSPProblem := do
  let variableNames ← convertScopeToVariables scope
  if variableNames.isEmpty then pure csp
  else pure (addConstraint csp constraintName variableNames
    (some arithmeticPredicate) parameters)

/-- `CSPTranslator._add_constraints`: one pass over the rules, naming each
constraint `f"{rule.constraint_type.value}_{len(csp.constraints)}"` and
dispatching on the rule kind; unsupported kinds are skipped with a
warning. -/
def addConstraints (csp : CSPProblem) (rules : List ConstraintRule) :
    Except Unit CSPProblem :=
  rules.foldlM (fun acc rule => do
    let constraintName :=
      rule.constraintType.value ++ "_" ++ natRepr acc.constraints.length
    match rule.constraintType with
    | .all_different => addAllDifferentConstraint acc constraintName rule.scope
    | .sum_ => addSumConstraint acc constraintName rule.scope rule.parameters
    | .arithmetic =>
        addArithmeticConstraint acc constraintName rule.scope rule.parameters
    | _ => pure acc) csp

/-- The cell-iteration order of `_add_variables`: row-major over
`range(rows) × range(cols)`. -/
def gridCells (rows cols : Nat) : List (Nat × Nat) :=
  (List.range rows).flatMap (fun r => (List.range cols).map (fun c => (r, c)))

/-- The loop body of `_add_variables` for one cell: domain `[value]` for
a filled cell and `state.get_domain(row, col)` otherwise. -/
def addVariablesStep (st : PuzzleState) (acc : CSPProblem) (rc : Nat × Nat) :
    CSPProblem :=
  let varName := cellNameN rc.1 rc.2
  match dictGet? st.filledCells (Int.ofNat rc.1, Int.ofNat rc.2) with
  | some value => addVariable acc varName [value]
  | none =>
      addVariable acc varName
        (getDomain st (Int.ofNat rc.1) (Int.ofNat rc.2))

/-- `CSPTranslator._add_variables`: one variable per cell. -/
def addVariables (csp : CSPProblem) (st : PuzzleState) : CSPProblem :=
  (gridCells st.gridSize.1.toNat st.gridSize.2.toNat).foldl
    (addVariablesStep st) csp

/-- `CSPTranslator.translate`: builds variables then constraints;
`none` models the `except Exception` branch. -/
def translate (rules : ConstraintRuleSet) (st : PuzzleState) :
    Option CSPProblem :=
  match addConstraints (addVariables ⟨[], []⟩ st) rules.rules with
  | .ok csp => some csp
  | .error _ => none

/-! ## `CSPProblem.is_consistent` -/

/-- The generator `all(self.variables[v].is_assigned() for v in scope)`:
evaluated left to right, short-circuiting at the first unassigned
variable; a scope name missing from the variable dictionary raises
`KeyError` (`Except.error`) when the generator reaches it. -/
def allAssigned (vars : List (String × Variable)) :
    List String → Except Unit Bool
  | [] => .ok true
  | v :: rest =>
      match dictGet? vars v with
      | none => .error ()
      | some var => if var.isAssigned then allAssigned vars rest else .ok false

/-- The dict `{v: self.variables[v].value for v in constraint.scope}`.
It is only built after `allAssigned` returned `ok true`, so every lookup
succeeds and every value is assigned; the `getD` defaults are
unreachable. -/
def scopeValues (vars : List (String × Variable)) (scope : List String) :
    Assignment :=
  mkDict (scope.map (fun v =>
    (v, ((dictGet? vars v).bind Variable.value).getD 0)))

/-- The `try`-wrapped predicate call inside `is_consistent`: `True` if
the predicate returns truthy, `False` if it returns falsy or raises. -/
def predEval (pred : Pred) (assignment : Assignment) (params : Params) :
    Bool :=
  match pred assignment params with
  | .ok b => b
  | .error _ => false

/-- One iteration of the `is_consistent` constraint loop:
`.error ()` — the `all(...)` generator raised `KeyError`;
`.ok true`  — the loop moves on (scope not fully assigned, no predicate,
or the predicate accepted); `.ok false` — the predicate returned falsy or
raised, so `is_consistent` returns `False`. -/
def constraintOutcome (vars1 : List (String × Variable)) (c : Constraint) :
    Except Unit Bool :=
  match allAssigned vars1 c.scope with
  | .error _ => .error ()
  | .ok false => .ok true
  | .ok true =>
      match c.predicate with
      | none => .ok true
      | some pred => .ok (predEval pred (scopeValues vars1 c.scope) c.parameters)

/-- The constraint loop of `CSPProblem.is_consistent`, started after the
candidate value has been temporarily written into `vars1`.  Returns the
Python return value (`none` models an uncaught `KeyError` escaping the
call) together with the problem as it is left behind: the paths that
return restore `variables[variable_name].value` to `origVar.value`; the
`KeyError` path propagates without restoring. -/
def isConsistentLoop (p : CSPProblem) (varName : String) (origVar : Variable)
    (vars1 : List (String × Variable)) :
    List Constraint → Option Bool × CSPProblem
  | [] =>
      (some true,
        ⟨dictSet vars1 varName ⟨origVar.name, origVar.domain, origVar.value⟩,
         p.constraints⟩)
  | c :: rest =>
      match constraintOutcome vars1 c with
      | .error _ => (none, ⟨vars1, p.constraints⟩)
      | .ok true => isConsistentLoop p varName origVar vars1 rest
      | .ok false =>
          (some false,
            ⟨dictSet vars1 varName
                ⟨origVar.name, origVar.domain, origVar.value⟩,
             p.constraints⟩)

/-- `CSPProblem.is_consistent(variable_name, value)`: temporarily assigns
`value`, checks every constraint involving the variable whose scope is
fully assigned (a predicate returning `False` or raising means
inconsistent), and restores the original value before returning. -/
def isConsistent (p : CSPProblem) (varName : String) (value : Int) :
    Option Bool × CSPProblem :=
  match dictGet? p.vars varName with
  | none => (none, p)
  | some origVar =>
      let vars1 :=
        dictSet p.vars varName ⟨origVar.name, origVar.domain, some value⟩
      isConsistentLoop p varName origVar vars1
        (getConstraintsForVariable p varName)

/-! ## Generic solver — `src/solvers/csp_solver.py` -/

/-- Stable insertion for an ascending sort by a `Nat` key: an element is
placed after all earlier elements with an equal or smaller key, so the
sort below has exactly the stability of Python's `sorted`. -/
def insertAscBy {α : Type} (key : α → Nat) (x : α) : List α → List α
  | [] => [x]
  | y :: ys =>
      if key y ≤ key x then y :: insertAscBy key x ys else x :: y :: ys

/-- Python `sorted(l, key=key)` (stable, ascending). -/
def sortAscBy {α : Type} (key : α → Nat) (l : List α) : List α :=
  l.foldl (fun acc x => insertAscBy key x acc) []

/-- Stable insertion for a descending sort by a `Nat` key. -/
def insertDescBy {α : Type} (key : α → Nat) (x : α) : List α → List α
  | [] => [x]
  | y :: ys =>
      if key x ≤ key y then y :: insertDescBy key x ys else x :: y :: ys

/-- Python `sorted(l, key=key, reverse=True)` (stable, descending). -/
def sortDescBy {α : Type} (key : α → Nat) (l : List α) : List α :=
  l.foldl (fun acc x => insertDescBy key x acc) []

/-- One constraint as registered with the `python-constraint` engine by
`_build_constraint_problem`.  `scope` is the variable list passed to
`problem.addConstraint` (the engine supplies argument values in this
order).  `zipScope` is the variable list the closure `wrapped` zips those
arguments against: because `wrapped` reads the loop variable `constraint`
of `_build_constraint_problem` at call time (Python closures capture
variables, not values, and the engine calls `wrapped` only after the loop
has finished), this is the scope of the **last** element of the sorted
constraint list for every registered constraint. -/
structure WrappedConstraint where
  scope : List String
  zipScope : List String
  pred : Pred
  params : Params

/-- The body of `wrapped(*args)`: build
`{var: val for var, val in zip(constraint.scope, args)}`, call the
underlying predicate, and treat a raised exception as `False`. -/
def wrappedEval (w : WrappedConstraint) (args : List Int) : Bool :=
  match w.pred (mkDict (w.zipScope.zip args)) w.params with
  | .ok b => b
  | .error _ => false

/-- The `constraint.Problem` assembled by `_build_constraint_problem`:
variables in ascending-domain-size order, wrapped constraints in
descending-scope-size order (constraints without a predicate are
skipped). -/
structure BuiltProblem where
  builtVars : List (String × List Int)
  builtConstraints : List WrappedConstraint

/-- `CSPSolver._build_constraint_problem`. -/
def buildConstraintProblem (p : CSPProblem) : BuiltProblem :=
  let sortedVars := sortAscBy (fun nv => nv.2.domain.length) p.vars
  let sortedConstraints := sortDescBy (fun c => c.scope.length) p.constraints
  let lastScope := ((sortedConstraints.getLast?).map Constraint.scope).getD []
  ⟨sortedVars.map (fun nv => (nv.1, nv.2.domain)),
   sortedConstraints.filterMap (fun c =>
     c.predicate.map (fun pred =>
       (⟨c.scope, lastScope, pred, c.parameters⟩ : WrappedConstraint)))⟩

/-- A constraint check over a partial assignment, as the engine's
`FunctionConstraint` performs it: a constraint whose scope is not yet
fully assigned passes; a fully scoped one is evaluated through
`wrapped`. -/
def checkConstraints (ws : List WrappedConstraint) (assigned : Assignment) :
    Bool :=
  ws.all (fun w =>
    match w.scope.mapM (fun v => dictGet? assigned v) with
    | some args => wrappedEval w args
    | none => true)

/-- Modelled from the spec (§4.2): the depth-first backtracking search of
`python-constraint`'s `problem.getSolution()` (library code, not part of
this repository): assign variables in registration order, try domain
values in order (`List.findSome?` returns the first success, exactly the
value loop with backtracking), prune when a fully scoped constraint
evaluates to `False`, and return the first complete consistent
assignment, or `none` when the space is exhausted.  The structural fuel
equals the number of remaining variables at every call site. -/
def searchSolution (ws : List WrappedConstraint) :
    Nat → List (String × List Int) → Assignment → Option Assignment
  | 0, vars, assigned =>
      match vars with
      | [] => if checkConstraints ws assigned then some assigned else none
      | _ :: _ => none
  | fuel + 1, vars, assigned =>
      match vars with
      | [] => if checkConstraints ws assigned then some assigned else none
      | nd :: rest =>
          nd.2.findSome? (fun v =>
            let a2 := dictSet assigned nd.1 v
            if checkConstraints ws a2 then searchSolution ws fuel rest a2
            else none)

/-- `CSPSolver.solve` when the search completes within the wall-clock
budget: the value built from `problem.getSolution()`.  (The thread-based
timeout changes only whether this value is awaited, never its content.) -/
def solveGeneric (p : CSPProblem) : Option Assignment :=
  let bp := buildConstraintProblem p
  searchSolution bp.builtConstraints bp.builtVars.length bp.builtVars []

/-! ## Specialized solver — `src/solvers/ortools_solver.py` -/

/-- One constraint of the CP-SAT model built by `_build_ortools_model`. -/
inductive OrtoolsConstraint where
  | allDifferent (varNames : List String)
  | linearEq (varNames : List String) (target : Int)
  | allowedAssign (varNames : List String) (allowed : List (List Int))
deriving Repr, DecidableEq

/-- `itertools.product(*domains)`: rightmost factor varies fastest. -/
def cartesianProduct : List (List Int) → List (List Int)
  | [] => [[]]
  | d :: ds => d.flatMap (fun v => (cartesianProduct ds).map (fun t => v :: t))

/-- `ORToolsSolver._generate_allowed_assignments`: enumerate the
Cartesian product of the scope variables' domains and keep the tuples on
which the predicate returns truthy; a raising predicate excludes the
tuple; any error while collecting domains (e.g. a scope name missing
from the problem) yields `[]`. -/
def generateAllowedAssignments (p : CSPProblem) (c : Constraint) :
    List (List Int) :=
  match c.scope.mapM (fun v => (dictGet? p.vars v).map Variable.domain) with
  | none => []
  | some domains =>
      (cartesianProduct domains).filter (fun tuple =>
        match c.predicate with
        | none => false
        | some pred =>
            match pred (mkDict (c.scope.zip tuple)) c.parameters with
            | .ok b => b
            | .error _ => false)

/-- The per-constraint conversion of `_build_ortools_model`: `none` when
no constraint is added to the CP-SAT model (no predicate, a scope name
missing from `var_map` — a `KeyError` caught by the per-constraint
`except` —, an empty allowed-assignment list, or a scope larger than 4 in
the fallback branch).  Dispatch is on substrings of the lower-cased
constraint name, exactly as the source does. -/
def buildOrtoolsConstraint (p : CSPProblem) (c : Constraint) :
    Option OrtoolsConstraint :=
  match c.predicate with
  | none => none
  | some _ =>
      if c.scope.all (fun v => dictContains p.vars v) then
        let nameL := pyLower c.name
        if pyContains nameL "all_different" || pyContains nameL "alldiff" then
          some (.allDifferent c.scope)
        else if pyContains nameL "sum" then
          some (.linearEq c.scope ((dictGet? c.parameters "sum").getD 0))
        else if c.scope.length ≤ 4 then
          let allowed := generateAllowedAssignments p c
          if allowed.isEmpty then none else some (.allowedAssign c.scope allowed)
        else none
      else none

/-- Modelled from the spec (§4.3): "converted to an explicit allowed-tuple
list by exhaustively enumerating the Cartesian product of per-variable
domains and retaining only tuples for which the constraint's evaluator
returns SATISFIED" — the reference list an allowed-assignments conversion
is compared against (an evaluation that raises or returns `False` is not
SATISFIED). -/
def specAllowedTuples (p : CSPProblem) (c : Constraint) (pred : Pred) :
    List (List Int) :=
  let domains :=
    c.scope.map (fun v => ((dictGet? p.vars v).map Variable.domain).getD [])
  (cartesianProduct domains).filter (fun tuple =>
    match pred (mkDict (c.scope.zip tuple)) c.parameters with
    | .ok true => true
    | _ => false)

/-! ## Concrete instances used by the claims -/

/-- Does every constraint's scope reference only existing variables?
(The invariant of spec §3 on `CSPProblem`.) -/
def scopeSubsetOk (p : CSPProblem) : Bool :=
  p.constraints.all (fun c => c.scope.all (fun v => dictContains p.vars v))

/-- The canonical Sudoku rule set: the three rule families
(row / column / box all-different), one `ConstraintRule` per unit, as a
client of the translator materialises them. -/
def canonicalRules : ConstraintRuleSet :=
  ⟨((List.range 9).map (fun i =>
      (⟨.all_different, ["row_" ++ natRepr i], []⟩ : ConstraintRule)))
   ++ ((List.range 9).map (fun i =>
      (⟨.all_different, ["col_" ++ natRepr i], []⟩ : ConstraintRule)))
   ++ ((List.range 9).map (fun i =>
      (⟨.all_different, ["box_" ++ natRepr i], []⟩ : ConstraintRule)))⟩

/-- The all-empty 9×9 puzzle state. -/
def emptyState9 : PuzzleState := ⟨(9, 9), [], []⟩

/-- The 81 cell variable names in the translator's creation order. -/
def cellNames81 : List String :=
  (List.range 9).flatMap (fun r => (List.range 9).map (fun c => cellNameN r c))

/-- The translation of the canonical rules over the empty 9×9 state. -/
def canonicalProblem : CSPProblem :=
  (translate canonicalRules emptyState9).getD ⟨[], []⟩

/-- A fully filled 2×9 grid whose row 0 holds the value 5 twice
(cells (0,0) and (0,1)) and whose row 1 is a permutation of 1..9. -/
def dupRowState : PuzzleState :=
  ⟨(2, 9),
   [(((0 : Int), (0 : Int)), (5 : Int)), (((0 : Int), (1 : Int)), 5),
    (((0 : Int), (2 : Int)), 1), (((0 : Int), (3 : Int)), 2),
    (((0 : Int), (4 : Int)), 3), (((0 : Int), (5 : Int)), 4),
    (((0 : Int), (6 : Int)), 6), (((0 : Int), (7 : Int)), 7),
    (((0 : Int), (8 : Int)), 8),
    (((1 : Int), (0 : Int)), 1), (((1 : Int), (1 : Int)), 2),
    (((1 : Int), (2 : Int)), 3), (((1 : Int), (3 : Int)), 4),
    (((1 : Int), (4 : Int)), 5), (((1 : Int), (5 : Int)), 6),
    (((1 : Int), (6 : Int)), 7), (((1 : Int), (7 : Int)), 8),
    (((1 : Int), (8 : Int)), 9)],
   []⟩

/-- ALL_DIFFERENT rules for rows 0 and 1. -/
def dupRowRules : ConstraintRuleSet :=
  ⟨[⟨.all_different, ["row_0"], []⟩, ⟨.all_different, ["row_1"], []⟩]⟩

/-- The CSP the translator builds from `dupRowRules` and `dupRowState`. -/
def dupRowProblem : CSPProblem :=
  (translate dupRowRules dupRowState).getD ⟨[], []⟩

/-- A 1×1 puzzle state (a single variable `cell_0_0`). -/
def oneCellState : PuzzleState := ⟨(1, 1), [], []⟩

/-- A rule whose literal scope token names a cell outside the grid. -/
def strayCellRules : ConstraintRuleSet :=
  ⟨[⟨.all_different, ["cell_5_5"], []⟩]⟩

/-- The CSP built from `strayCellRules` over the 1×1 state. -/
def strayCellProblem : CSPProblem :=
  (translate strayCellRules oneCellState).getD ⟨[], []⟩

/-- A rule whose scope token matches the `row_` prefix but has a
non-numeric index, so `int(item.split("_")[1])` raises `ValueError`. -/
def badIndexRules : ConstraintRuleSet :=
  ⟨[⟨.all_different, ["row_x"], []⟩]⟩

/-- A rule whose scope token matches no known prefix at all. -/
def unknownTokenRules : ConstraintRuleSet :=
  ⟨[⟨.all_different, ["frobnicate"], []⟩, ⟨.adjacency, ["row_0"], []⟩]⟩

/-- A predicate that rejects every assignment. -/
def unsatPred : Pred := fun _assignment _params => .ok false

/-- A CUSTOM constraint (named as the translator names them) whose
evaluator never returns SATISFIED, on a single-variable scope. -/
def unsatConstraint : Constraint :=
  ⟨"custom_0", ["cell_0_0"], some unsatPred, []⟩

/-- A one-variable problem with domain `[1]`. -/
def singletonProblem : CSPProblem :=
  ⟨[("cell_0_0", ⟨"cell_0_0", [1], none⟩)], []⟩

/-- An in-range scope token for a 9×9 grid: `row_i`, `col_j` or `box_k`
with an index in `0..8`, or a literal `cell_r_c` with `r, c` in `0..8`. -/
def goodTokenB (t : String) : Bool :=
  (List.range 9).any (fun i => t == "row_" ++ natRepr i) ||
  (List.range 9).any (fun i => t == "col_" ++ natRepr i) ||
  (List.range 9).any (fun i => t == "box_" ++ natRepr i) ||
  (List.range 9).any (fun r =>
    (List.range 9).any (fun c => t == cellNameN r c))

/-- A CUSTOM constraint (scope size 1) whose evaluator is satisfiable:
it accepts exactly the assignments giving `cell_0_0` the value 1. -/
def rangePred : Pred :=
  fun assignment _params => .ok (dictGet? assignment "cell_0_0" == some 1)

/-- The satisfiable CUSTOM constraint used as a witness instance. -/
def rangeConstraint : Constraint :=
  ⟨"custom_0", ["cell_0_0"], some rangePred, []⟩

/-- A one-variable problem whose variable has the two-value domain. -/
def twoValProblem : CSPProblem :=
  ⟨[("cell_0_0", ⟨"cell_0_0", [1, 2], none⟩)], []⟩

/-- A five-variable problem (domains `[1]`) for the scope-size-5 case. -/
def fiveVarProblem : CSPProblem :=
  ⟨[("v0", ⟨"v0", [1], none⟩), ("v1", ⟨"v1", [1], none⟩),
    ("v2", ⟨"v2", [1], none⟩), ("v3", ⟨"v3", [1], none⟩),
    ("v4", ⟨"v4", [1], none⟩)], []⟩

/-- A CUSTOM constraint whose scope has five variables. -/
def bigConstraint : Constraint :=
  ⟨"custom_1", ["v0", "v1", "v2", "v3", "v4"], some rangePred, []⟩

/-- A predicate that raises on every call. -/
def raisePred : Pred := fun _assignment _params => .error ()

/-- A constraint whose predicate always raises. -/
def raiseConstraint : Constraint := ⟨"custom_0", ["x"], some raisePred, []⟩

/-- A one-variable problem carrying `raiseConstraint`. -/
def raiseProblem : CSPProblem :=
  ⟨[("x", ⟨"x", [1], some 1⟩)], [raiseConstraint]⟩

/-! ## Supporting lemmas: decimal rendering, parsing, splitting -/

theorem strData_append (a b : String) : (a ++ b).data = a.data ++ b.data := by
  cases a
  cases b
  rfl

theorem digitChar_spec (d : Nat) (h : d < 10) :
    (digitChar d).isDigit = true ∧ (digitChar d).toNat - 48 = d ∧
    digitChar d ≠ '_' ∧ digitChar d ≠ '-' ∧ digitChar d ≠ '+' ∧
    (digitChar d).isWhitespace = false := by
  interval_cases d <;> decide

theorem natDigitsAux_mem (fuel : Nat) :
    ∀ n, n < fuel → ∀ c ∈ natDigitsAux fuel n, ∃ d, d < 10 ∧ c = digitChar d := by
  induction fuel with
  | zero => omega
  | succ fuel ih =>
      intro n hn c hc
      by_cases h10 : n < 10
      · simp only [natDigitsAux, if_pos h10, List.mem_singleton] at hc
        exact ⟨n, h10, hc⟩
      · simp only [natDigitsAux, if_neg h10, List.mem_append,
          List.mem_singleton] at hc
        rcases hc with hc | hc
        · have hdiv : n / 10 < n := Nat.div_lt_self (by omega) (by omega)
          exact ih (n / 10) (by omega) c hc
        · exact ⟨n % 10, Nat.mod_lt _ (by omega), hc⟩

theorem natDigits_mem (n : Nat) :
    ∀ c ∈ natDigits n, ∃ d, d < 10 ∧ c = digitChar d :=
  natDigitsAux_mem (n + 1) n (Nat.lt_succ_self n)

theorem natDigits_ne_nil (n : Nat) : natDigits n ≠ [] := by
  unfold natDigits natDigitsAux
  by_cases h10 : n < 10 <;> simp [h10]

theorem underscore_not_mem_natDigits (n : Nat) : '_' ∉ natDigits n := by
  intro hmem
  obtain ⟨d, hd, hc⟩ := natDigits_mem n '_' hmem
  exact (digitChar_spec d hd).2.2.1 hc.symm

theorem digitsVal_natDigitsAux (fuel : Nat) :
    ∀ n, n < fuel → digitsVal (natDigitsAux fuel n) = n := by
  induction fuel with
  | zero => omega
  | succ fuel ih =>
      intro n hn
      by_cases h10 : n < 10
      · simp only [natDigitsAux, if_pos h10, digitsVal, List.foldl]
        have := (digitChar_spec n h10).2.1
        omega
      · have hdiv : n / 10 < n := Nat.div_lt_self (by omega) (by omega)
        simp only [natDigitsAux, if_neg h10, digitsVal, List.foldl_append,
          List.foldl]
        have h1 : List.foldl (fun a c => a * 10 + (c.toNat - 48)) 0
            (natDigitsAux fuel (n / 10)) = n / 10 := ih (n / 10) (by omega)
        rw [h1]
        have := (digitChar_spec (n % 10) (Nat.mod_lt _ (by omega))).2.1
        omega

theorem digitsVal_natDigits (n : Nat) : digitsVal (natDigits n) = n :=
  digitsVal_natDigitsAux (n + 1) n (Nat.lt_succ_self n)

theorem dropWhile_of_none {p : Char → Bool} :
    ∀ l : List Char, (∀ c ∈ l, p c = false) → List.dropWhile p l = l := by
  intro l h
  cases l with
  | nil => rfl
  | cons c cs => simp [List.dropWhile, h c (List.mem_cons_self c cs)]

theorem pyStrip_of_digits (l : List Char)
    (h : ∀ c ∈ l, ∃ d, d < 10 ∧ c = digitChar d) : pyStrip l = l := by
  have hw : ∀ c ∈ l, c.isWhitespace = false := by
    intro c hc
    obtain ⟨d, hd, rfl⟩ := h c hc
    exact (digitChar_spec d hd).2.2.2.2.2
  unfold pyStrip
  rw [dropWhile_of_none l hw]
  rw [dropWhile_of_none l.reverse (fun c hc => hw c (List.mem_reverse.mp hc))]
  exact List.reverse_reverse l

theorem pyIntParse_natRepr (n : Nat) :
    pyIntParse (natRepr n) = some (Int.ofNat n) := by
  unfold pyIntParse
  have hdata : (natRepr n).data = natDigits n := rfl
  rw [hdata, pyStrip_of_digits (natDigits n) (natDigits_mem n)]
  rcases hnd : natDigits n with _ | ⟨c, rest⟩
  · exact absurd hnd (natDigits_ne_nil n)
  · have hcmem : c ∈ natDigits n := by
      rw [hnd]
      exact List.mem_cons_self c rest
    obtain ⟨d, hd, rfl⟩ := natDigits_mem n c hcmem
    rw [pyIntParseCore, if_neg (digitChar_spec d hd).2.2.2.1,
        if_neg (digitChar_spec d hd).2.2.2.2.1]
    rw [if_pos]
    · have hval : digitsVal (digitChar d :: rest) = n := by
        rw [← hnd]
        exact digitsVal_natDigits n
      rw [hval]
      rfl
    · rw [List.all_eq_true]
      intro x hx
      obtain ⟨e, he, rfl⟩ := natDigits_mem n x (by rw [hnd]; exact hx)
      exact (digitChar_spec e he).1

theorem pySplitChars_of_not_mem (sep : Char) :
    ∀ l : List Char, sep ∉ l → pySplitChars sep l = [l] := by
  intro l
  induction l with
  | nil => intro _; rfl
  | cons c cs ih =>
      intro h
      have hc : ¬c = sep := fun hc => h (hc ▸ List.mem_cons_self c cs)
      have hcs : sep ∉ cs := fun hm => h (List.mem_cons_of_mem c hm)
      simp only [pySplitChars, if_neg hc, ih hcs]

theorem pySplitChars_append_cons (sep : Char) :
    ∀ pre rest : List Char, sep ∉ pre →
      pySplitChars sep (pre ++ sep :: rest) = pre :: pySplitChars sep rest := by
  intro pre
  induction pre with
  | nil =>
      intro rest _
      simp [pySplitChars]
  | cons c cs ih =>
      intro rest h
      have hc : ¬c = sep := fun hc => h (hc ▸ List.mem_cons_self c cs)
      have hcs : sep ∉ cs := fun hm => h (List.mem_cons_of_mem c hm)
      rw [List.cons_append, pySplitChars, if_neg hc, ih rest hcs]

theorem isPrefixOf_append_self (a b : List Char) :
    a.isPrefixOf (a ++ b) = true := by
  rw [List.isPrefixOf_iff_prefix]
  exact List.prefix_append a b

theorem pyStartsWith_append (pre t : String) :
    pyStartsWith (pre ++ t) pre = true := by
  unfold pyStartsWith
  rw [strData_append]
  exact isPrefixOf_append_self pre.data t.data

theorem pySplit_prefix4 (c1 c2 c3 : Char) (i : Nat)
    (h1 : c1 ≠ '_') (h2 : c2 ≠ '_') (h3 : c3 ≠ '_') :
    pySplit (String.mk [c1, c2, c3, '_'] ++ natRepr i) '_' =
      [String.mk [c1, c2, c3], natRepr i] := by
  unfold pySplit
  rw [strData_append]
  have hshape : (String.mk [c1, c2, c3, '_']).data ++ (natRepr i).data =
      [c1, c2, c3] ++ '_' :: natDigits i := rfl
  have hnm : '_' ∉ [c1, c2, c3] := by
    intro hm
    simp only [List.mem_cons, List.not_mem_nil, or_false] at hm
    rcases hm with rfl | rfl | rfl
    exacts [h1 rfl, h2 rfl, h3 rfl]
  rw [hshape, pySplitChars_append_cons '_' [c1, c2, c3] (natDigits i) hnm,
    pySplitChars_of_not_mem '_' (natDigits i) (underscore_not_mem_natDigits i)]
  rfl

theorem cellNameI_ofNat (r c : Nat) :
    cellNameI (Int.ofNat r) (Int.ofNat c) = cellNameN r c := by
  unfold cellNameI cellNameN intRepr
  rw [if_neg (not_lt.mpr (show (0 : Int) ≤ Int.ofNat r from Int.ofNat_nonneg r)),
    if_neg (not_lt.mpr (show (0 : Int) ≤ Int.ofNat c from Int.ofNat_nonneg c))]
  rfl

theorem cellNameN_data (r c : Nat) :
    (cellNameN r c).data =
      'c' :: 'e' :: 'l' :: 'l' :: '_' :: (natDigits r ++ '_' :: natDigits c) := by
  unfold cellNameN natRepr
  rw [strData_append, strData_append, strData_append]
  simp only [List.append_assoc]
  rfl

theorem row_not_prefix_col (t : String) :
    pyStartsWith ("col_" ++ t) "row_" = false := by
  unfold pyStartsWith
  rw [strData_append]
  rfl

theorem row_not_prefix_box (t : String) :
    pyStartsWith ("box_" ++ t) "row_" = false := by
  unfold pyStartsWith
  rw [strData_append]
  rfl

theorem col_not_prefix_box (t : String) :
    pyStartsWith ("box_" ++ t) "col_" = false := by
  unfold pyStartsWith
  rw [strData_append]
  rfl

theorem row_not_prefix_cellName (r c : Nat) :
    pyStartsWith (cellNameN r c) "row_" = false := by
  unfold pyStartsWith
  rw [cellNameN_data]
  rfl

theorem col_not_prefix_cellName (r c : Nat) :
    pyStartsWith (cellNameN r c) "col_" = false := by
  unfold pyStartsWith
  rw [cellNameN_data]
  rfl

theorem box_not_prefix_cellName (r c : Nat) :
    pyStartsWith (cellNameN r c) "box_" = false := by
  unfold pyStartsWith
  rw [cellNameN_data]
  rfl

theorem cell_prefix_cellName (r c : Nat) :
    pyStartsWith (cellNameN r c) "cell_" = true := by
  unfold pyStartsWith
  rw [cellNameN_data, List.isPrefixOf_iff_prefix]
  exact ⟨natDigits r ++ '_' :: natDigits c, rfl⟩

theorem convertToken_row (i : Nat) :
    convertToken ("row_" ++ natRepr i) =
      .ok ((List.range 9).map (fun col => cellNameN i col)) := by
  unfold convertToken
  rw [pyStartsWith_append "row_" (natRepr i)]
  have hsplit : pySplit ("row_" ++ natRepr i) '_' = ["row", natRepr i] :=
    pySplit_prefix4 'r' 'o' 'w' i (by decide) (by decide) (by decide)
  rw [hsplit]
  simp only [List.getD_cons_succ, List.getD_cons_zero, pyIntParse_natRepr,
    cellNameI_ofNat, if_true]

theorem convertToken_col (j : Nat) :
    convertToken ("col_" ++ natRepr j) =
      .ok ((List.range 9).map (fun row => cellNameN row j)) := by
  unfold convertToken
  rw [row_not_prefix_col (natRepr j), pyStartsWith_append "col_" (natRepr j)]
  have hsplit : pySplit ("col_" ++ natRepr j) '_' = ["col", natRepr j] :=
    pySplit_prefix4 'c' 'o' 'l' j (by decide) (by decide) (by decide)
  rw [hsplit]
  simp only [List.getD_cons_succ, List.getD_cons_zero, pyIntParse_natRepr,
    cellNameI_ofNat, if_true, Bool.false_eq_true, if_false]

theorem ofNat_fdiv3 (k : Nat) : (Int.ofNat k).fdiv 3 = Int.ofNat (k / 3) := by
  show ((k : Int)).fdiv 3 = ((k / 3 : Nat) : Int)
  rw [Int.fdiv_eq_tdiv (Int.natCast_nonneg k) (by decide), Int.ofNat_tdiv]
  rfl

theorem ofNat_fmod3 (k : Nat) : (Int.ofNat k).fmod 3 = Int.ofNat (k % 3) := by
  show ((k : Int)).fmod 3 = ((k % 3 : Nat) : Int)
  rw [Int.fmod_eq_tmod (Int.natCast_nonneg k) (by decide), Int.ofNat_tmod]
  rfl

theorem ofNat_mul3_add (a b : Nat) :
    Int.ofNat a * 3 + Int.ofNat b = Int.ofNat (a * 3 + b) := by
  show (a : Int) * 3 + (b : Int) = ((a * 3 + b : Nat) : Int)
  push_cast
  ring

theorem convertToken_box (k : Nat) :
    convertToken ("box_" ++ natRepr k) =
      .ok ((List.range 3).flatMap (fun r => (List.range 3).map (fun c =>
        cellNameN (k / 3 * 3 + r) (k % 3 * 3 + c)))) := by
  unfold convertToken
  rw [row_not_prefix_box (natRepr k), col_not_prefix_box (natRepr k),
    pyStartsWith_append "box_" (natRepr k)]
  have hsplit : pySplit ("box_" ++ natRepr k) '_' = ["box", natRepr k] :=
    pySplit_prefix4 'b' 'o' 'x' k (by decide) (by decide) (by decide)
  rw [hsplit]
  simp only [List.getD_cons_succ, List.getD_cons_zero, pyIntParse_natRepr,
    if_true, Bool.false_eq_true, if_false, ofNat_fdiv3, ofNat_fmod3,
    ofNat_mul3_add, cellNameI_ofNat]

theorem convertToken_cellName (r c : Nat) :
    convertToken (cellNameN r c) = .ok [cellNameN r c] := by
  unfold convertToken
  rw [row_not_prefix_cellName r c, col_not_prefix_cellName r c,
    box_not_prefix_cellName r c, cell_prefix_cellName r c]
  rfl

/-! ## Claim theorems -/

/-- **C1** (code_bug evidence).  The translator's CSP for `dupRowState`
(row 0 duplicates the value 5 in its two leading singleton cells) and the
two row ALL_DIFFERENT rules makes the generic solver return a complete
assignment that repeats 5 inside the `row_0` scope — not `null` as the
spec requires.  The wrapped predicate of every constraint except the last
sorted one zips its argument values against the last constraint's scope
(late binding of `constraint` in `make_constraint`), so the `row_0`
all-different check is evaluated on `row_1`'s variable names, sees an
empty value list, and passes vacuously. -/
theorem c1_duplicate_row_false_positive :
    (translate dupRowRules dupRowState).isSome = true ∧
    dictGet? dupRowProblem.vars "cell_0_0" = some ⟨"cell_0_0", [5], none⟩ ∧
    dictGet? dupRowProblem.vars "cell_0_1" = some ⟨"cell_0_1", [5], none⟩ ∧
    dupRowProblem.constraints.map Constraint.scope =
      [(List.range 9).map (fun c => cellNameI 0 (Int.ofNat c)),
       (List.range 9).map (fun c => cellNameI 1 (Int.ofNat c))] ∧
    solveGeneric dupRowProblem =
      some [("cell_0_0", 5), ("cell_0_1", 5), ("cell_0_2", 1),
            ("cell_0_3", 2), ("cell_0_4", 3), ("cell_0_5", 4),
            ("cell_0_6", 6), ("cell_0_7", 7), ("cell_0_8", 8),
            ("cell_1_0", 1), ("cell_1_1", 2), ("cell_1_2", 3),
            ("cell_1_3", 4), ("cell_1_4", 5), ("cell_1_5", 6),
            ("cell_1_6", 7), ("cell_1_7", 8), ("cell_1_8", 9)] := by
  decide

/-- **C2**.  Translating the canonical Sudoku rules (the three
row/column/box all-different families, one rule per unit) over the
all-empty 9×9 state yields exactly 81 variables — named `cell_r_c` in
row-major creation order, each with domain `[1..9]` and unassigned — and
exactly 27 constraints, each with scope size 9. -/
theorem c2_canonical_translation :
    (translate canonicalRules emptyState9).isSome = true ∧
    canonicalProblem.vars.map Prod.fst = cellNames81 ∧
    canonicalProblem.vars.length = 81 ∧
    canonicalProblem.vars.all
      (fun nv => nv.2 == ⟨nv.1, [1, 2, 3, 4, 5, 6, 7, 8, 9], none⟩) = true ∧
    canonicalProblem.constraints.length = 27 ∧
    canonicalProblem.constraints.all (fun c => c.scope.length == 9) = true := by
  decide

/-- **C4** counterexample.  The translator happily builds a problem whose
constraint scope is NOT a subset of its variable names: over a 1×1 grid,
the literal token `cell_5_5` passes through scope expansion unchanged and
`add_constraint` registers it without any validation, so the claimed
invariant fails and is not enforced at construction. -/
theorem c4_counterexample :
    (translate strayCellRules oneCellState).isSome = true ∧
    strayCellProblem.constraints.map Constraint.scope = [["cell_5_5"]] ∧
    dictContains strayCellProblem.vars "cell_5_5" = false ∧
    scopeSubsetOk strayCellProblem = false := by
  decide

/-- **C5** counterexample.  A scope token of unknown format is not always
dropped: `"row_x"` matches the `row_` prefix, `int("x")` raises
`ValueError`, the exception reaches `translate`'s catch-all, and
`translate` returns `None` — merely because of a bad scope token.  (A
token matching no known prefix, by contrast, is dropped and translation
succeeds.) -/
theorem c5_counterexample :
    (translate badIndexRules oneCellState).isSome = false ∧
    (translate unknownTokenRules oneCellState).isSome = true := by
  decide

/-- **C6** counterexample.  A non-all-different, non-sum constraint with
scope size ≤ 4 is NOT always converted into its exact satisfied-tuple
list: when no tuple satisfies the evaluator the allowed list is empty,
`_build_ortools_model` takes the falsy-`allowed` branch, and no
constraint at all is added to the CP-SAT model (the exact list — here
`[]` — is dropped). -/
theorem c6_counterexample :
    pyContains (pyLower unsatConstraint.name) "all_different" = false ∧
    pyContains (pyLower unsatConstraint.name) "alldiff" = false ∧
    pyContains (pyLower unsatConstraint.name) "sum" = false ∧
    unsatConstraint.scope.length ≤ 4 ∧
    specAllowedTuples singletonProblem unsatConstraint unsatPred = [] ∧
    buildOrtoolsConstraint singletonProblem unsatConstraint = none := by
  decide

/-- **C3**.  Scope-token expansion maps each token form as specified:
`row_i` to the nine cells of row `i`, `col_j` to the nine cells of column
`j`, `box_k` to the 3×3 block whose top-left cell is
`(3*(k/3), 3*(k%3))` (row-major), and a literal `cell_r_c` token passes
through unchanged. -/
theorem c3_scope_expansion :
    (∀ i : Nat, convertToken ("row_" ++ natRepr i) =
        .ok ((List.range 9).map (fun col => cellNameN i col))) ∧
    (∀ j : Nat, convertToken ("col_" ++ natRepr j) =
        .ok ((List.range 9).map (fun row => cellNameN row j))) ∧
    (∀ k : Nat, convertToken ("box_" ++ natRepr k) =
        .ok ((List.range 3).flatMap (fun dr => (List.range 3).map (fun dc =>
          cellNameN (3 * (k / 3) + dr) (3 * (k % 3) + dc))))) ∧
    (∀ r c : Nat, convertToken (cellNameN r c) = .ok [cellNameN r c]) := by
  refine ⟨convertToken_row, convertToken_col, ?_, convertToken_cellName⟩
  intro k
  have h := convertToken_box k
  have hr : k / 3 * 3 = 3 * (k / 3) := Nat.mul_comm _ _
  have hm : k % 3 * 3 = 3 * (k % 3) := Nat.mul_comm _ _
  rw [h, hr, hm]

/-- **C7**.  An ARITHMETIC rule with a non-empty expanded scope yields a
constraint carrying the placeholder predicate, and that predicate
evaluates to `True` on every assignment and every parameter
dictionary. -/
theorem c7_arithmetic_placeholder (csp : CSPProblem) (constraintName : String)
    (scope : List String) (parameters : Params) (vs : List String)
    (h : convertScopeToVariables scope = .ok vs) (hne : vs ≠ []) :
    addArithmeticConstraint csp constraintName scope parameters =
      .ok (addConstraint csp constraintName vs
        (some arithmeticPredicate) parameters) ∧
    ∀ (assignment : Assignment) (params : Params),
      arithmeticPredicate assignment params = .ok true := by
  constructor
  · cases vs with
    | nil => exact absurd rfl hne
    | cons a as =>
        unfold addArithmeticConstraint
        rw [h]
        rfl
  · intro _ _
    rfl

/-- Witness for C7 at a concrete single-cell scope. -/
theorem c7_arithmetic_placeholder_witness :
    addArithmeticConstraint ⟨[], []⟩ "arithmetic_0" ["cell_0_0"] [] =
      .ok (addConstraint ⟨[], []⟩ "arithmetic_0" ["cell_0_0"]
        (some arithmeticPredicate) []) ∧
    ∀ (assignment : Assignment) (params : Params),
      arithmeticPredicate assignment params = .ok true :=
  c7_arithmetic_placeholder ⟨[], []⟩ "arithmetic_0" ["cell_0_0"] []
    ["cell_0_0"] (by rfl) (by decide)

theorem length_filterMap_lt_of_none {α β : Type} (f : α → Option β) :
    ∀ l : List α, (∃ x ∈ l, f x = none) → (l.filterMap f).length < l.length := by
  intro l
  induction l with
  | nil => rintro ⟨x, hx, _⟩; exact absurd hx (List.not_mem_nil x)
  | cons a as ih =>
      rintro ⟨x, hx, hfx⟩
      rcases List.mem_cons.mp hx with rfl | hxs
      · rw [List.filterMap_cons, hfx]
        have := List.length_filterMap_le f as
        simpa using Nat.lt_succ_of_le this
      · rw [List.filterMap_cons]
        cases hfa : f a with
        | none =>
            have := ih ⟨x, hxs, hfx⟩
            simpa using Nat.lt_succ_of_lt this
        | some b =>
            have := ih ⟨x, hxs, hfx⟩
            simpa using Nat.succ_lt_succ this

theorem length_filterMap_eq_of_isSome {α β : Type} (f : α → Option β) :
    ∀ l : List α, (∀ x ∈ l, (f x).isSome) →
      (l.filterMap f).length = l.length := by
  intro l
  induction l with
  | nil => intro _; rfl
  | cons a as ih =>
      intro h
      have ha := h a (List.mem_cons_self a as)
      rw [List.filterMap_cons]
      cases hfa : f a with
      | none => rw [hfa] at ha; exact absurd ha (by simp)
      | some b =>
          have := ih (fun x hx => h x (List.mem_cons_of_mem a hx))
          simpa using this

theorem length_dedup_eq_iff_nodup {l : List Int} :
    l.length = l.dedup.length ↔ l.Nodup := by
  constructor
  · intro h
    have hsub := List.dedup_sublist l
    have := hsub.eq_of_length h.symm
    rw [← this]
    exact List.nodup_dedup l
  · intro h
    rw [List.dedup_eq_self.mpr h]

/-- **C8**.  The translator's ALL_DIFFERENT predicate follows the
three-valued contract: an assignment missing any scope variable is
accepted (partial assignments are never rejected), and a fully covering
assignment is accepted exactly when the list of assigned scope values has
no duplicate. -/
theorem c8_all_different_contract (variableNames : List String)
    (assignment : Assignment) (params : Params) :
    ((∃ v ∈ variableNames, dictGet? assignment v = none) →
      allDifferentPredicate variableNames assignment params = .ok true) ∧
    ((∀ v ∈ variableNames, (dictGet? assignment v).isSome) →
      (allDifferentPredicate variableNames assignment params = .ok true ↔
        (variableNames.filterMap (fun v => dictGet? assignment v)).Nodup)) := by
  constructor
  · rintro ⟨v, hv, hnone⟩
    unfold allDifferentPredicate
    rw [if_pos]
    exact length_filterMap_lt_of_none _ variableNames ⟨v, hv, hnone⟩
  · intro hall
    unfold allDifferentPredicate
    have hnlt : ¬(variableNames.filterMap
        (fun v => dictGet? assignment v)).length < variableNames.length := by
      rw [length_filterMap_eq_of_isSome _ variableNames hall]
      exact lt_irrefl _
    rw [if_neg hnlt]
    constructor
    · intro h
      have hb := Except.ok.inj h
      exact length_dedup_eq_iff_nodup.mp (beq_iff_eq.mp hb)
    · intro h
      have hb : ((variableNames.filterMap
            (fun v => dictGet? assignment v)).length ==
          (variableNames.filterMap
            (fun v => dictGet? assignment v)).dedup.length) = true :=
        beq_iff_eq.mpr (length_dedup_eq_iff_nodup.mpr h)
      rw [hb]

/-- Witness for C8: a partial assignment over a two-variable scope passes;
a full distinct assignment passes; a full duplicated one is rejected. -/
theorem c8_all_different_contract_witness :
    allDifferentPredicate ["cell_0_0", "cell_0_1"] [("cell_0_0", 5)] [] =
      .ok true ∧
    (allDifferentPredicate ["cell_0_0", "cell_0_1"]
        [("cell_0_0", 5), ("cell_0_1", 5)] [] = .ok true ↔
      ((["cell_0_0", "cell_0_1"] : List String).filterMap
        (fun v => dictGet?
          ([("cell_0_0", 5), ("cell_0_1", 5)] : Assignment) v)).Nodup) :=
  ⟨(c8_all_different_contract ["cell_0_0", "cell_0_1"] [("cell_0_0", 5)] []).1
      ⟨"cell_0_1", by decide, by decide⟩,
   (c8_all_different_contract ["cell_0_0", "cell_0_1"]
      [("cell_0_0", 5), ("cell_0_1", 5)] []).2 (by decide)⟩

theorem dictSet_dictSet {κ β : Type} [BEq κ] [LawfulBEq κ]
    (d : List (κ × β)) (k : κ) (a b : β) :
    dictSet (dictSet d k a) k b = dictSet d k b := by
  induction d with
  | nil => simp [dictSet]
  | cons p rest ih =>
      obtain ⟨k', v'⟩ := p
      cases hk : k' == k with
      | true =>
          rw [dictSet, if_pos hk, dictSet, if_pos (by simp), dictSet,
            if_pos hk]
      | false =>
          rw [dictSet, if_neg (by simp [hk]), dictSet, if_neg (by simp [hk]),
            dictSet, if_neg (by simp [hk]), ih]

theorem dictSet_of_get_eq {κ β : Type} [BEq κ] [LawfulBEq κ] :
    ∀ (d : List (κ × β)) (k : κ) (v : β),
      dictGet? d k = some v → dictSet d k v = d := by
  intro d
  induction d with
  | nil => intro k v h; simp [dictGet?] at h
  | cons p rest ih =>
      intro k v h
      obtain ⟨k', v'⟩ := p
      cases hk : k' == k with
      | true =>
          have hfirst : dictGet? ((k', v') :: rest) k = some v' := by
            simp [dictGet?, List.find?, hk]
          rw [hfirst] at h
          obtain rfl : v' = v := Option.some.inj h
          rw [dictSet, if_pos hk]
          have : k = k' := (eq_of_beq hk).symm
          rw [this]
      | false =>
          have hget : dictGet? ((k', v') :: rest) k = dictGet? rest k := by
            simp [dictGet?, List.find?, hk]
          rw [hget] at h
          rw [dictSet, if_neg (by simp [hk]), ih k v h]

theorem isConsistentLoop_frame (p : CSPProblem) (varName : String)
    (origVar : Variable) (hl : dictGet? p.vars varName = some origVar)
    (value : Int) :
    ∀ (cs : List Constraint) (b : Bool),
      (isConsistentLoop p varName origVar
        (dictSet p.vars varName
          ⟨origVar.name, origVar.domain, some value⟩) cs).1 = some b →
      (isConsistentLoop p varName origVar
        (dictSet p.vars varName
          ⟨origVar.name, origVar.domain, some value⟩) cs).2 = p := by
  have hrestore :
      dictSet (dictSet p.vars varName
          ⟨origVar.name, origVar.domain, some value⟩) varName
        ⟨origVar.name, origVar.domain, origVar.value⟩ = p.vars := by
    rw [dictSet_dictSet]
    have heta : (⟨origVar.name, origVar.domain, origVar.value⟩ : Variable) =
        origVar := rfl
    rw [heta]
    exact dictSet_of_get_eq p.vars varName origVar hl
  intro cs
  induction cs with
  | nil =>
      intro b _
      show (⟨_, p.constraints⟩ : CSPProblem) = p
      rw [hrestore]
  | cons c rest ih =>
      intro b
      rw [isConsistentLoop]
      cases constraintOutcome (dictSet p.vars varName
          ⟨origVar.name, origVar.domain, some value⟩) c with
      | error e =>
          intro hb
          exact absurd hb (by simp)
      | ok ab =>
          cases ab with
          | true => exact ih b
          | false =>
              intro _
              show (⟨_, p.constraints⟩ : CSPProblem) = p
              rw [hrestore]

/-- **C10**.  `is_consistent` is side-effect free whenever it returns:
if the call completes with `True` or `False` (rather than escaping with a
`KeyError`), the problem afterwards — every variable's stored value and
the constraint list — equals the problem before the call. -/
theorem c10_is_consistent_frame (p : CSPProblem) (varName : String)
    (value : Int) (b : Bool)
    (hret : (isConsistent p varName value).1 = some b) :
    (isConsistent p varName value).2 = p := by
  unfold isConsistent at hret ⊢
  cases hl : dictGet? p.vars varName with
  | none => rfl
  | some origVar =>
      rw [hl] at hret
      exact isConsistentLoop_frame p varName origVar hl value
        (getConstraintsForVariable p varName) b hret

/-- Witness for C10: a concrete completing call (whose constraint
predicate raises, so it returns `False`) leaves the problem intact. -/
theorem c10_is_consistent_frame_witness :
    (isConsistent raiseProblem "x" 1).1 = some false ∧
    (isConsistent raiseProblem "x" 1).2 = raiseProblem :=
  ⟨by decide, c10_is_consistent_frame raiseProblem "x" 1 false (by decide)⟩

theorem constraintOutcome_ne_error (vars1 : List (String × Variable))
    (c : Constraint) (h : allAssigned vars1 c.scope ≠ .error ()) :
    constraintOutcome vars1 c ≠ .error () := by
  unfold constraintOutcome
  cases haa : allAssigned vars1 c.scope with
  | error e =>
      cases e
      exact absurd haa h
  | ok ab =>
      cases ab with
      | false => exact fun hcon => Except.noConfusion hcon
      | true =>
          cases c.predicate with
          | none => exact fun hcon => Except.noConfusion hcon
          | some pred => exact fun hcon => Except.noConfusion hcon

theorem constraintOutcome_false_of_raise (vars1 : List (String × Variable))
    (c : Constraint) (pred : Pred)
    (haa : allAssigned vars1 c.scope = .ok true)
    (hpred : c.predicate = some pred) (e : Unit)
    (herr : pred (scopeValues vars1 c.scope) c.parameters = .error e) :
    constraintOutcome vars1 c = .ok false := by
  unfold constraintOutcome
  rw [haa, hpred]
  show Except.ok (predEval pred (scopeValues vars1 c.scope) c.parameters) =
    Except.ok false
  unfold predEval
  rw [herr]

/-- If some reachable constraint's outcome is `False` (its fully assigned
predicate returned falsy or raised) and no constraint in the list escapes
with a `KeyError`, the `is_consistent` loop returns `False`. -/
theorem isConsistentLoop_fail (p : CSPProblem) (varName : String)
    (origVar : Variable) (vars1 : List (String × Variable)) :
    ∀ cs : List Constraint,
      (∀ c' ∈ cs, constraintOutcome vars1 c' ≠ .error ()) →
      (∃ c ∈ cs, constraintOutcome vars1 c = .ok false) →
      (isConsistentLoop p varName origVar vars1 cs).1 = some false := by
  intro cs
  induction cs with
  | nil =>
      rintro _ ⟨c, hc, _⟩
      exact absurd hc (List.not_mem_nil c)
  | cons h t ih =>
      rintro hkey ⟨c, hc, hcfail⟩
      rw [isConsistentLoop]
      cases ho : constraintOutcome vars1 h with
      | error e =>
          cases e
          exact absurd ho (hkey h (List.mem_cons_self h t))
      | ok ab =>
          cases ab with
          | false => rfl
          | true =>
              rcases List.mem_cons.mp hc with rfl | hct
              · rw [ho] at hcfail
                exact absurd hcfail (by simp)
              · exact ih (fun c' hc' => hkey c' (List.mem_cons_of_mem h hc'))
                  ⟨c, hct, hcfail⟩

/-- **C9**.  Exceptions raised inside a constraint predicate are treated
as a violation on both generic-path evaluation sites: the solver's
`wrapped` closure maps a raising predicate call to `False`, and
`is_consistent` returns `False` when a reachable fully assigned
constraint's predicate raises (provided no constraint escapes with a
`KeyError` first, which would abort the call instead). -/
theorem c9_exception_fail_closed :
    (∀ (w : WrappedConstraint) (args : List Int) (e : Unit),
      w.pred (mkDict (w.zipScope.zip args)) w.params = .error e →
      wrappedEval w args = false) ∧
    (∀ (p : CSPProblem) (varName : String) (value : Int)
      (origVar : Variable) (c : Constraint) (pred : Pred),
      dictGet? p.vars varName = some origVar →
      (∀ c' ∈ getConstraintsForVariable p varName,
        allAssigned (dictSet p.vars varName
          ⟨origVar.name, origVar.domain, some value⟩) c'.scope ≠ .error ()) →
      c ∈ getConstraintsForVariable p varName →
      allAssigned (dictSet p.vars varName
        ⟨origVar.name, origVar.domain, some value⟩) c.scope = .ok true →
      c.predicate = some pred →
      (∃ e, pred (scopeValues (dictSet p.vars varName
        ⟨origVar.name, origVar.domain, some value⟩) c.scope)
          c.parameters = .error e) →
      (isConsistent p varName value).1 = some false) := by
  constructor
  · intro w args e herr
    unfold wrappedEval
    rw [herr]
  · rintro p varName value origVar c pred hl hkey hmem haa hpred ⟨e, herr⟩
    unfold isConsistent
    rw [hl]
    exact isConsistentLoop_fail p varName origVar _
      (getConstraintsForVariable p varName)
      (fun c' hc' => constraintOutcome_ne_error _ c' (hkey c' hc'))
      ⟨c, hmem, constraintOutcome_false_of_raise _ c pred haa hpred e herr⟩

/-- Witness for C9: a raising wrapped constraint evaluates to `False`,
and `is_consistent` on `raiseProblem` (whose only constraint raises)
returns `False`. -/
theorem c9_exception_fail_closed_witness :
    wrappedEval ⟨["x"], ["x"], raisePred, []⟩ [1] = false ∧
    (isConsistent raiseProblem "x" 1).1 = some false :=
  ⟨c9_exception_fail_closed.1 ⟨["x"], ["x"], raisePred, []⟩ [1] () rfl,
   c9_exception_fail_closed.2 raiseProblem "x" 1 ⟨"x", [1], some 1⟩
     raiseConstraint raisePred rfl
     (by intro c' hc' hbad
         have hlist : getConstraintsForVariable raiseProblem "x" =
             [raiseConstraint] := rfl
         rw [hlist] at hc'
         rw [List.mem_singleton.mp hc'] at hbad
         exact Except.noConfusion hbad)
     (List.mem_cons_self raiseConstraint [])
     rfl rfl ⟨(), rfl⟩⟩

/-- **C5** (amended).  A scope token matching none of the four known
prefixes contributes no variables while the remaining tokens are still
expanded; a rule whose expansion is empty creates no constraint and
translation succeeds; an unsupported rule kind creates no constraint and
does not fail; but a token matching a `row_`/`col_`/`box_` prefix whose
index does not parse as an integer raises, which is what makes
`translate` return null. -/
theorem c5_amended :
    (∀ (t : String) (rest : List String),
      pyStartsWith t "row_" = false → pyStartsWith t "col_" = false →
      pyStartsWith t "box_" = false → pyStartsWith t "cell_" = false →
      convertScopeToVariables (t :: rest) = convertScopeToVariables rest) ∧
    (∀ (csp : CSPProblem) (constraintName : String) (scope : List String),
      convertScopeToVariables scope = .ok [] →
      addAllDifferentConstraint csp constraintName scope = .ok csp) ∧
    (∀ (csp : CSPProblem) (scope : List String) (params : Params),
      addConstraints csp [⟨.adjacency, scope, params⟩] = .ok csp) ∧
    (∀ t : String, pyStartsWith t "row_" = true →
      pyIntParse ((pySplit t '_').getD 1 "") = none →
      convertToken t = .error ()) := by
  refine ⟨?_, ?_, ?_, ?_⟩
  · intro t rest h1 h2 h3 h4
    have hct : convertToken t = .ok [] := by
      unfold convertToken
      rw [h1, h2, h3, h4]
      rfl
    rw [convertScopeToVariables, hct]
    cases hrest : convertScopeToVariables rest with
    | error e => rfl
    | ok l => rfl
  · intro csp constraintName scope h
    unfold addAllDifferentConstraint
    rw [h]
    rfl
  · intro csp scope params
    unfold addConstraints
    rw [List.foldlM_cons]
    rfl
  · intro t h1 hparse
    unfold convertToken
    rw [h1, hparse]
    rfl

/-- Witness for C5 (amended) at concrete tokens, rules and problems. -/
theorem c5_amended_witness :
    convertScopeToVariables ["frobnicate"] = convertScopeToVariables [] ∧
    addAllDifferentConstraint ⟨[], []⟩ "all_different_0" ["frobnicate"] =
      .ok ⟨[], []⟩ ∧
    addConstraints ⟨[], []⟩
      [(⟨.adjacency, ["row_0"], []⟩ : ConstraintRule)] = .ok ⟨[], []⟩ ∧
    convertToken "row_x" = .error () :=
  ⟨c5_amended.1 "frobnicate" [] (by decide) (by decide) (by decide)
      (by decide),
   c5_amended.2.1 ⟨[], []⟩ "all_different_0" ["frobnicate"] (by rfl),
   c5_amended.2.2.1 ⟨[], []⟩ ["row_0"] [],
   c5_amended.2.2.2 "row_x" (by decide) (by rfl)⟩

theorem mapM_eq_map_of_isSome {α β : Type} (f : α → Option β) (d : β) :
    ∀ l : List α, (∀ x ∈ l, (f x).isSome) →
      l.mapM f = some (l.map (fun x => (f x).getD d)) := by
  intro l
  induction l with
  | nil => intro _; rfl
  | cons a as ih =>
      intro h
      rw [List.mapM_cons]
      cases hfa : f a with
      | none =>
          have := h a (List.mem_cons_self a as)
          rw [hfa] at this
          exact absurd this (by simp)
      | some b =>
          rw [ih (fun x hx => h x (List.mem_cons_of_mem a hx))]
          simp [hfa]

theorem generateAllowed_eq_spec (p : CSPProblem) (c : Constraint)
    (pred : Pred) (hpred : c.predicate = some pred)
    (hvars : ∀ v ∈ c.scope, dictContains p.vars v = true) :
    generateAllowedAssignments p c = specAllowedTuples p c pred := by
  have hsome : ∀ v ∈ c.scope,
      ((fun v => (dictGet? p.vars v).map Variable.domain) v).isSome = true := by
    intro v hv
    have hcon := hvars v hv
    unfold dictContains at hcon
    show ((dictGet? p.vars v).map Variable.domain).isSome = true
    cases hg : dictGet? p.vars v with
    | none => rw [hg] at hcon; exact absurd hcon (by simp)
    | some var => rfl
  unfold generateAllowedAssignments specAllowedTuples
  rw [mapM_eq_map_of_isSome (fun v => (dictGet? p.vars v).map Variable.domain)
    [] c.scope hsome]
  show List.filter
      (fun tuple =>
        match c.predicate with
        | none => false
        | some pred =>
          match pred (mkDict (c.scope.zip tuple)) c.parameters with
          | .ok b => b
          | .error _ => false)
      (cartesianProduct (c.scope.map (fun v =>
        ((dictGet? p.vars v).map Variable.domain).getD []))) =
    List.filter
      (fun tuple =>
        match pred (mkDict (c.scope.zip tuple)) c.parameters with
        | .ok true => true
        | _ => false)
      (cartesianProduct (c.scope.map (fun v =>
        ((dictGet? p.vars v).map Variable.domain).getD [])))
  apply List.filter_congr
  intro tuple _
  rw [hpred]
  cases hres : pred (mkDict (c.scope.zip tuple)) c.parameters with
  | ok b => cases b <;> simp [hres]
  | error e => simp [hres]

/-- **C6** (amended).  A constraint that is neither all-different nor sum
(by name substring), with predicate present and every scope name in the
problem: with scope size at most 4 and at least one satisfying domain
tuple it is converted to exactly the list of Cartesian-product tuples on
which the evaluator returns SATISFIED; with no satisfying tuple, or with
scope size above 4, no constraint is added to the CP-SAT model. -/
theorem c6_amended (p : CSPProblem) (c : Constraint) (pred : Pred)
    (hpred : c.predicate = some pred)
    (hvars : ∀ v ∈ c.scope, dictContains p.vars v = true)
    (had : pyContains (pyLower c.name) "all_different" = false)
    (hadf : pyContains (pyLower c.name) "alldiff" = false)
    (hsum : pyContains (pyLower c.name) "sum" = false) :
    (c.scope.length ≤ 4 → specAllowedTuples p c pred ≠ [] →
      buildOrtoolsConstraint p c =
        some (.allowedAssign c.scope (specAllowedTuples p c pred))) ∧
    (4 < c.scope.length → buildOrtoolsConstraint p c = none) := by
  have hscope : c.scope.all (fun v => dictContains p.vars v) = true :=
    List.all_eq_true.mpr hvars
  constructor
  · intro hlen hne
    unfold buildOrtoolsConstraint
    simp only [hpred, hscope, had, hadf, hsum, if_true, Bool.or_self,
      Bool.false_eq_true, if_false]
    rw [generateAllowed_eq_spec p c pred hpred hvars]
    have hemp : (specAllowedTuples p c pred).isEmpty = false := by
      cases hsp : specAllowedTuples p c pred with
      | nil => exact absurd hsp hne
      | cons a as => rfl
    simp [hlen, hemp]
  · intro hlen
    unfold buildOrtoolsConstraint
    simp only [hpred, hscope, had, hadf, hsum, if_true, Bool.or_self,
      Bool.false_eq_true, if_false]
    simp [Nat.not_le.mpr hlen]

/-- Witness for C6 (amended): a satisfiable CUSTOM constraint on a
two-value domain converts to its exact satisfied-tuple list, and a
five-variable CUSTOM constraint is skipped. -/
theorem c6_amended_witness :
    buildOrtoolsConstraint twoValProblem rangeConstraint =
      some (.allowedAssign ["cell_0_0"]
        (specAllowedTuples twoValProblem rangeConstraint rangePred)) ∧
    buildOrtoolsConstraint fiveVarProblem bigConstraint = none :=
  ⟨(c6_amended twoValProblem rangeConstraint rangePred rfl
      (by decide) (by decide) (by decide) (by decide)).1 (by decide)
      (by intro h
          have : specAllowedTuples twoValProblem rangeConstraint rangePred =
              [[1]] := by rfl
          rw [this] at h
          exact List.noConfusion h),
   (c6_amended fiveVarProblem bigConstraint rangePred rfl
      (by decide) (by decide) (by decide) (by decide)).2 (by decide)⟩

theorem dictGet?_dictSet_same {κ β : Type} [BEq κ] [LawfulBEq κ] :
    ∀ (d : List (κ × β)) (k : κ) (v : β), dictGet? (dictSet d k v) k = some v := by
  intro d
  induction d with
  | nil => intro k v; simp [dictSet, dictGet?, List.find?]
  | cons p rest ih =>
      intro k v
      obtain ⟨k', v'⟩ := p
      cases hk : k' == k with
      | true =>
          rw [dictSet, if_pos hk]
          simp [dictGet?, List.find?]
      | false =>
          rw [dictSet, if_neg (by simp [hk])]
          unfold dictGet? at ih ⊢
          rw [List.find?]
          simp only [hk]
          exact ih k v

theorem dictGet?_dictSet_other {κ β : Type} [BEq κ] [LawfulBEq κ] :
    ∀ (d : List (κ × β)) (k k' : κ) (v : β), (k == k') = false →
      dictGet? (dictSet d k v) k' = dictGet? d k' := by
  intro d
  induction d with
  | nil =>
      intro k k' v hkk
      simp [dictSet, dictGet?, List.find?, hkk]
  | cons p rest ih =>
      intro k k' v hkk
      obtain ⟨a, b⟩ := p
      cases hak : a == k with
      | true =>
          rw [dictSet, if_pos hak]
          have hak' : (a == k') = false := by
            have ha : a = k := eq_of_beq hak
            rw [ha]
            exact hkk
          unfold dictGet?
          rw [List.find?, List.find?]
          simp only [hkk, hak']
      | false =>
          rw [dictSet, if_neg (by simp [hak])]
          unfold dictGet? at ih ⊢
          rw [List.find?, List.find?]
          cases hak' : a == k' with
          | true => rfl
          | false => exact ih k k' v hkk

theorem dictContains_dictSet_mono {κ β : Type} [BEq κ] [LawfulBEq κ]
    (d : List (κ × β)) (k k' : κ) (v : β)
    (h : dictContains d k' = true) :
    dictContains (dictSet d k v) k' = true := by
  cases hkk : k == k' with
  | true =>
      have : k = k' := eq_of_beq hkk
      rw [← this] at h ⊢
      unfold dictContains
      rw [dictGet?_dictSet_same]
      rfl
  | false =>
      unfold dictContains
      rw [dictGet?_dictSet_other d k k' v hkk]
      exact h

theorem dictContains_dictSet_self {κ β : Type} [BEq κ] [LawfulBEq κ]
    (d : List (κ × β)) (k : κ) (v : β) :
    dictContains (dictSet d k v) k = true := by
  unfold dictContains
  rw [dictGet?_dictSet_same]
  rfl

theorem addVariablesStep_vars (st : PuzzleState) (acc : CSPProblem)
    (rc : Nat × Nat) :
    ∃ dv, (addVariablesStep st acc rc).vars =
      dictSet acc.vars (cellNameN rc.1 rc.2) dv := by
  unfold addVariablesStep addVariable
  cases dictGet? st.filledCells (Int.ofNat rc.1, Int.ofNat rc.2) with
  | none => exact ⟨_, rfl⟩
  | some value => exact ⟨_, rfl⟩

theorem addVariablesStep_constraints (st : PuzzleState) (acc : CSPProblem)
    (rc : Nat × Nat) :
    (addVariablesStep st acc rc).constraints = acc.constraints := by
  unfold addVariablesStep addVariable
  cases dictGet? st.filledCells (Int.ofNat rc.1, Int.ofNat rc.2) with
  | none => rfl
  | some value => rfl

theorem foldl_addVariablesStep_mono (st : PuzzleState) :
    ∀ (cells : List (Nat × Nat)) (acc : CSPProblem) (name : String),
      dictContains acc.vars name = true →
      dictContains ((cells.foldl (addVariablesStep st) acc)).vars name =
        true := by
  intro cells
  induction cells with
  | nil => intro acc name h; exact h
  | cons rc rest ih =>
      intro acc name h
      rw [List.foldl_cons]
      refine ih (addVariablesStep st acc rc) name ?_
      obtain ⟨dv, hv⟩ := addVariablesStep_vars st acc rc
      rw [hv]
      exact dictContains_dictSet_mono acc.vars _ name dv h

theorem foldl_addVariablesStep_mem (st : PuzzleState) :
    ∀ (cells : List (Nat × Nat)) (acc : CSPProblem) (r c : Nat),
      (r, c) ∈ cells →
      dictContains ((cells.foldl (addVariablesStep st) acc)).vars
        (cellNameN r c) = true := by
  intro cells
  induction cells with
  | nil =>
      intro acc r c h
      exact absurd h (List.not_mem_nil (r, c))
  | cons rc rest ih =>
      intro acc r c h
      rw [List.foldl_cons]
      rcases List.mem_cons.mp h with rfl | hrest
      · refine foldl_addVariablesStep_mono st rest _ (cellNameN r c) ?_
        obtain ⟨dv, hv⟩ := addVariablesStep_vars st acc (r, c)
        rw [hv]
        exact dictContains_dictSet_self acc.vars (cellNameN r c) dv
      · exact ih (addVariablesStep st acc rc) r c hrest

theorem mem_gridCells (rows cols r c : Nat) (hr : r < rows) (hc : c < cols) :
    (r, c) ∈ gridCells rows cols := by
  unfold gridCells
  rw [List.mem_flatMap]
  exact ⟨r, List.mem_range.mpr hr,
    List.mem_map.mpr ⟨c, List.mem_range.mpr hc, rfl⟩⟩

theorem addVariables_contains (st : PuzzleState) (csp : CSPProblem)
    (r c : Nat) (hr : r < st.gridSize.1.toNat) (hc : c < st.gridSize.2.toNat) :
    dictContains (addVariables csp st).vars (cellNameN r c) = true := by
  unfold addVariables
  exact foldl_addVariablesStep_mem st _ csp r c
    (mem_gridCells _ _ r c hr hc)

theorem addVariables_constraints (st : PuzzleState) :
    ∀ (cells : List (Nat × Nat)) (csp : CSPProblem),
      ((cells.foldl (addVariablesStep st) csp)).constraints =
        csp.constraints := by
  intro cells
  induction cells with
  | nil => intro csp; rfl
  | cons rc rest ih =>
      intro csp
      rw [List.foldl_cons, ih, addVariablesStep_constraints]

theorem convertToken_of_good (t : String) (h : goodTokenB t = true) :
    ∃ vs, convertToken t = .ok vs ∧
      ∀ v ∈ vs, ∃ r c : Nat, r < 9 ∧ c < 9 ∧ v = cellNameN r c := by
  unfold goodTokenB at h
  simp only [Bool.or_eq_true, List.any_eq_true, List.mem_range,
    beq_iff_eq] at h
  rcases h with ((h1 | h2) | h3) | h4
  · obtain ⟨i, hi, ht⟩ := h1
    subst ht
    refine ⟨_, convertToken_row i, ?_⟩
    intro v hv
    rw [List.mem_map] at hv
    obtain ⟨col, hcol, hveq⟩ := hv
    exact ⟨i, col, hi, List.mem_range.mp hcol, hveq.symm⟩
  · obtain ⟨i, hi, ht⟩ := h2
    subst ht
    refine ⟨_, convertToken_col i, ?_⟩
    intro v hv
    rw [List.mem_map] at hv
    obtain ⟨row, hrow, hveq⟩ := hv
    exact ⟨row, i, List.mem_range.mp hrow, hi, hveq.symm⟩
  · obtain ⟨i, hi, ht⟩ := h3
    subst ht
    refine ⟨_, convertToken_box i, ?_⟩
    intro v hv
    rw [List.mem_flatMap] at hv
    obtain ⟨dr, hdr, hv⟩ := hv
    rw [List.mem_map] at hv
    obtain ⟨dc, hdc, hveq⟩ := hv
    rw [List.mem_range] at hdr hdc
    exact ⟨i / 3 * 3 + dr, i % 3 * 3 + dc, by omega, by omega, hveq.symm⟩
  · obtain ⟨r, hr, c, hc, ht⟩ := h4
    subst ht
    refine ⟨_, convertToken_cellName r c, ?_⟩
    intro v hv
    rw [List.mem_singleton] at hv
    exact ⟨r, c, hr, hc, hv⟩

theorem convertScope_of_good :
    ∀ scope : List String, (∀ t ∈ scope, goodTokenB t = true) →
      ∃ vs, convertScopeToVariables scope = .ok vs ∧
        ∀ v ∈ vs, ∃ r c : Nat, r < 9 ∧ c < 9 ∧ v = cellNameN r c := by
  intro scope
  induction scope with
  | nil =>
      intro _
      exact ⟨[], rfl, fun v hv => absurd hv (List.not_mem_nil v)⟩
  | cons t rest ih =>
      intro h
      obtain ⟨vs1, h1, hb1⟩ := convertToken_of_good t
        (h t (List.mem_cons_self t rest))
      obtain ⟨vs2, h2, hb2⟩ := ih (fun t' ht' =>
        h t' (List.mem_cons_of_mem t ht'))
      refine ⟨vs1 ++ vs2, ?_, ?_⟩
      · rw [convertScopeToVariables, h1, h2]
        rfl
      · intro v hv
        rcases List.mem_append.mp hv with hv1 | hv2
        · exact hb1 v hv1
        · exact hb2 v hv2

theorem addConstraints_cons (csp : CSPProblem) (rule : ConstraintRule)
    (rest : List ConstraintRule) :
    addConstraints csp (rule :: rest) =
      (match rule.constraintType with
        | .all_different => addAllDifferentConstraint csp
            (rule.constraintType.value ++ "_" ++
              natRepr csp.constraints.length) rule.scope
        | .sum_ => addSumConstraint csp
            (rule.constraintType.value ++ "_" ++
              natRepr csp.constraints.length) rule.scope rule.parameters
        | .arithmetic => addArithmeticConstraint csp
            (rule.constraintType.value ++ "_" ++
              natRepr csp.constraints.length) rule.scope rule.parameters
        | _ => pure csp) >>= fun csp1 => addConstraints csp1 rest := by
  simp only [addConstraints]
  rw [List.foldlM_cons]

theorem addConstraints_scope_good :
    ∀ (rules : List ConstraintRule) (csp : CSPProblem),
      (∀ rule ∈ rules, ∀ t ∈ rule.scope, goodTokenB t = true) →
      ∃ csp', addConstraints csp rules = .ok csp' ∧
        csp'.vars = csp.vars ∧
        ∀ c ∈ csp'.constraints, c ∈ csp.constraints ∨
          ∀ v ∈ c.scope, ∃ r c2 : Nat, r < 9 ∧ c2 < 9 ∧ v = cellNameN r c2 := by
  intro rules
  induction rules with
  | nil =>
      intro csp _
      exact ⟨csp, rfl, rfl, fun c hc => .inl hc⟩
  | cons rule rest ih =>
      intro csp h
      have hrule := h rule (List.mem_cons_self rule rest)
      have hrest : ∀ rule' ∈ rest, ∀ t ∈ rule'.scope, goodTokenB t = true :=
        fun rule' hr' => h rule' (List.mem_cons_of_mem rule hr')
      rw [addConstraints_cons]
      obtain ⟨vs, hvs, hb⟩ := convertScope_of_good rule.scope hrule
      have hstep : ∃ csp1,
          (match rule.constraintType with
            | .all_different => addAllDifferentConstraint csp
                (rule.constraintType.value ++ "_" ++
                  natRepr csp.constraints.length) rule.scope
            | .sum_ => addSumConstraint csp
                (rule.constraintType.value ++ "_" ++
                  natRepr csp.constraints.length) rule.scope rule.parameters
            | .arithmetic => addArithmeticConstraint csp
                (rule.constraintType.value ++ "_" ++
                  natRepr csp.constraints.length) rule.scope rule.parameters
            | _ => pure csp) = .ok csp1 ∧
          csp1.vars = csp.vars ∧
          ∀ c ∈ csp1.constraints, c ∈ csp.constraints ∨
            ∀ v ∈ c.scope, ∃ r c2 : Nat, r < 9 ∧ c2 < 9 ∧
              v = cellNameN r c2 := by
        cases rule.constraintType with
        | all_different =>
            unfold addAllDifferentConstraint
            rw [hvs]
            cases vs with
            | nil => exact ⟨csp, rfl, rfl, fun c hc => .inl hc⟩
            | cons a as =>
                refine ⟨_, rfl, rfl, ?_⟩
                intro c hc
                unfold addConstraint at hc
                rcases List.mem_append.mp hc with hc1 | hc2
                · exact .inl hc1
                · right
                  rw [List.mem_singleton.mp hc2]
                  exact hb
        | sum_ =>
            unfold addSumConstraint
            rw [hvs]
            cases vs with
            | nil => exact ⟨csp, rfl, rfl, fun c hc => .inl hc⟩
            | cons a as =>
                refine ⟨_, rfl, rfl, ?_⟩
                intro c hc
                unfold addConstraint at hc
                rcases List.mem_append.mp hc with hc1 | hc2
                · exact .inl hc1
                · right
                  rw [List.mem_singleton.mp hc2]
                  exact hb
        | arithmetic =>
            unfold addArithmeticConstraint
            rw [hvs]
            cases vs with
            | nil => exact ⟨csp, rfl, rfl, fun c hc => .inl hc⟩
            | cons a as =>
                refine ⟨_, rfl, rfl, ?_⟩
                intro c hc
                unfold addConstraint at hc
                rcases List.mem_append.mp hc with hc1 | hc2
                · exact .inl hc1
                · right
                  rw [List.mem_singleton.mp hc2]
                  exact hb
        | adjacency => exact ⟨csp, rfl, rfl, fun c hc => .inl hc⟩
        | custom => exact ⟨csp, rfl, rfl, fun c hc => .inl hc⟩
      obtain ⟨csp1, hs, hv1, hp1⟩ := hstep
      rw [hs]
      obtain ⟨csp', h', hv', hp'⟩ := ih csp1 hrest
      refine ⟨csp', by rw [show ((Except.ok csp1 : Except Unit CSPProblem) >>=
        fun a => addConstraints a rest) = addConstraints csp1 rest from rfl,
        h'], by rw [hv', hv1], ?_⟩
      intro c hc
      rcases hp' c hc with hc1 | hgood
      · rcases hp1 c hc1 with hc2 | hgood
        · exact .inl hc2
        · exact .inr hgood
      · exact .inr hgood

/-- **C4** (amended).  `CSPProblem.add_constraint` performs no validation
(it appends the constraint unconditionally), so the scope-subset
invariant is not enforced at construction; it does hold for every problem
the translator builds over a 9×9 grid when every rule's scope tokens are
in-range `row_i` / `col_j` / `box_k` / `cell_r_c` tokens. -/
theorem c4_amended (rules : ConstraintRuleSet) (st : PuzzleState)
    (p : CSPProblem) (hgrid : st.gridSize = (9, 9))
    (htok : ∀ rule ∈ rules.rules, ∀ t ∈ rule.scope, goodTokenB t = true)
    (htr : translate rules st = some p) :
    scopeSubsetOk p = true ∧
    (∀ (q : CSPProblem) (n : String) (s : List String)
      (pred : Option Pred) (par : Params),
      (addConstraint q n s pred par).constraints =
        q.constraints ++ [⟨n, s, pred, par⟩]) := by
  refine ⟨?_, fun q n s pred par => rfl⟩
  obtain ⟨csp', hcs, hvars, hprop⟩ :=
    addConstraints_scope_good rules.rules (addVariables ⟨[], []⟩ st) htok
  unfold translate at htr
  rw [hcs] at htr
  obtain rfl : csp' = p := Option.some.inj htr
  unfold scopeSubsetOk
  rw [List.all_eq_true]
  intro c hc
  rw [List.all_eq_true]
  intro v hv
  rcases hprop c hc with hbase | hgood
  · rw [show (addVariables ⟨[], []⟩ st).constraints = [] from
      addVariables_constraints st _ ⟨[], []⟩] at hbase
    exact absurd hbase (List.not_mem_nil c)
  · obtain ⟨r, c2, hr, hc2, rfl⟩ := hgood v hv
    rw [hvars]
    exact addVariables_contains st ⟨[], []⟩ r c2
      (by rw [hgrid]; exact hr) (by rw [hgrid]; exact hc2)

/-- Witness for C4 (amended): the canonical Sudoku translation over the
empty 9×9 state satisfies the scope-subset invariant. -/
theorem c4_amended_witness :
    scopeSubsetOk canonicalProblem = true ∧
    (∀ (q : CSPProblem) (n : String) (s : List String)
      (pred : Option Pred) (par : Params),
      (addConstraint q n s pred par).constraints =
        q.constraints ++ [⟨n, s, pred, par⟩]) :=
  c4_amended canonicalRules emptyState9 canonicalProblem rfl (by decide)
    (by rfl)

end VlmCsp
